import Mathlib

/-!
Shallow embedding of the messaging substrate of the hierarchical-agi-system
repository: the `Message` envelope (src/core/communication/message.py), the
per-agent `CommunicationProtocol` endpoint (src/core/communication/protocol.py)
and the `MessageRouter` (src/core/communication/router.py).

Modelling conventions:
* Python dataclass fields become structure fields; Python `dict` becomes an
  association list with dict-assignment (replace-or-append) and pop semantics.
* The library `datetime` value is opaque (`Datetime`); its injective
  `isoformat` / inverse `fromisoformat` pair is embedded by the `DVal.time`
  constructor of the serialized-value type (the constructor stands for the
  ISO-8601 string of the wrapped value).
* Python `float` fields (`timeout_seconds`) are carried as `Rat`; the code
  never computes with them, it only stores and copies them.
* Async behaviour is embedded by explicit state passing plus oracles:
  the resolution of an `asyncio.Future` within its timeout is an oracle
  argument, a registered handler is a function returning `Except` (an
  exception raised by the handler is its `.error` result), and the outcome of
  an `await protocol.send_message(...)` inside the capability fan-out is a
  `SendResult` oracle.  `try/except` blocks of the source become matches on
  those results.
-/

namespace HierComm

/-- Opaque model of a library `datetime` value (produced by
`datetime.utcnow()`); the code never inspects it, it only stores, copies and
serializes it. -/
structure Datetime where
  ticks : Nat
deriving DecidableEq

/-- The closed message-type taxonomy of `MessageType` in message.py. -/
inductive MessageType
  | query | sub_query | query_response
  | register | unregister | heartbeat | status_update
  | data_request | data_response | knowledge_share
  | performance_report | quality_assessment | reward_signal | pruning_notice
  | idea_proposal | hypothesis_test | experiment_result
  | admin_command | admin_feedback | system_log
deriving DecidableEq

/-- The `.value` string of each `MessageType` member. -/
def MessageType.value : MessageType → String
  | .query => "query"
  | .sub_query => "sub_query"
  | .query_response => "query_response"
  | .register => "register"
  | .unregister => "unregister"
  | .heartbeat => "heartbeat"
  | .status_update => "status_update"
  | .data_request => "data_request"
  | .data_response => "data_response"
  | .knowledge_share => "knowledge_share"
  | .performance_report => "performance_report"
  | .quality_assessment => "quality_assessment"
  | .reward_signal => "reward_signal"
  | .pruning_notice => "pruning_notice"
  | .idea_proposal => "idea_proposal"
  | .hypothesis_test => "hypothesis_test"
  | .experiment_result => "experiment_result"
  | .admin_command => "admin_command"
  | .admin_feedback => "admin_feedback"
  | .system_log => "system_log"

/-- The enum constructor call `MessageType(value)`: reverse lookup by value,
`none` models the `ValueError` Python raises on an unknown value. -/
def MessageType.ofValue (s : String) : Option MessageType :=
  if s = "query" then some .query
  else if s = "sub_query" then some .sub_query
  else if s = "query_response" then some .query_response
  else if s = "register" then some .register
  else if s = "unregister" then some .unregister
  else if s = "heartbeat" then some .heartbeat
  else if s = "status_update" then some .status_update
  else if s = "data_request" then some .data_request
  else if s = "data_response" then some .data_response
  else if s = "knowledge_share" then some .knowledge_share
  else if s = "performance_report" then some .performance_report
  else if s = "quality_assessment" then some .quality_assessment
  else if s = "reward_signal" then some .reward_signal
  else if s = "pruning_notice" then some .pruning_notice
  else if s = "idea_proposal" then some .idea_proposal
  else if s = "hypothesis_test" then some .hypothesis_test
  else if s = "experiment_result" then some .experiment_result
  else if s = "admin_command" then some .admin_command
  else if s = "admin_feedback" then some .admin_feedback
  else if s = "system_log" then some .system_log
  else none

/-- `MessagePriority` in message.py. -/
inductive MessagePriority
  | low | normal | high | critical
deriving DecidableEq

/-- The `.value` of each `MessagePriority` member. -/
def MessagePriority.value : MessagePriority → Nat
  | .low => 0
  | .normal => 1
  | .high => 2
  | .critical => 3

/-- The enum constructor call `MessagePriority(value)`. -/
def MessagePriority.ofValue (n : Nat) : Option MessagePriority :=
  if n = 0 then some .low
  else if n = 1 then some .normal
  else if n = 2 then some .high
  else if n = 3 then some .critical
  else none

/-- An untyped `Dict[str, Any]` payload/metadata map, abstracted as a string
to string association list; the code only stores and copies these maps. -/
def Dict : Type := List (String × String)

instance : DecidableEq Dict := by
  unfold Dict; infer_instance

/-- The `Message` dataclass of message.py.  The `default_factory` fields
(`message_id` from `uuid.uuid4()`, `timestamp` from `datetime.utcnow()`) are
supplied explicitly wherever the source constructs a `Message`. -/
structure Message where
  message_id : String
  message_type : MessageType
  sender_id : String
  receiver_id : String
  priority : MessagePriority
  timestamp : Datetime
  payload : Dict
  metadata : Dict
  parent_message_id : Option String
  requires_response : Bool
  timeout_seconds : Rat
  retry_count : Nat
  max_retries : Nat
deriving DecidableEq

/-- `Message.should_retry`: `retry_count < max_retries`. -/
def Message.should_retry (m : Message) : Bool :=
  m.retry_count < m.max_retries

/-- `Message.increment_retry`: bump the retry counter in place. -/
def Message.increment_retry (m : Message) : Message :=
  { m with retry_count := m.retry_count + 1 }

/-- `Message.create_response`: a response message addressed back to the
request's sender, correlated via `parent_message_id`.  `freshId` and `ts`
stand for the `uuid.uuid4()` / `datetime.utcnow()` default factories of the
new dataclass instance; fields the call site leaves unset get the dataclass
defaults. -/
def Message.create_response (m : Message) (freshId : String) (ts : Datetime)
    (payload : Dict) (metadata : Option Dict) : Message :=
  { message_id := freshId
    message_type := .query_response
    sender_id := m.receiver_id
    receiver_id := m.sender_id
    priority := m.priority
    timestamp := ts
    payload := payload
    metadata := metadata.getD []
    parent_message_id := some m.message_id
    requires_response := false
    timeout_seconds := 30
    retry_count := 0
    max_retries := 3 }

/-- A value stored in a serialized message dictionary.  `time d` stands for
the ISO-8601 string `d.isoformat()` (injective by construction, inverted by
`fromisoformat`); `null` is Python `None`. -/
inductive DVal
  | str (s : String)
  | num (n : Nat)
  | rat (q : Rat)
  | boolv (b : Bool)
  | time (d : Datetime)
  | dict (l : Dict)
  | null
deriving DecidableEq

/-- Association-list lookup, the read side of a Python `dict`
(`d[k]` / `d.get(k)`). -/
def alistGet? {κ α : Type} [DecidableEq κ] : List (κ × α) → κ → Option α
  | [], _ => none
  | (k, v) :: rest, key => if k = key then some v else alistGet? rest key

/-- Python dict assignment `d[k] = v`: replace the value in place if the key
is present, append otherwise. -/
def alistInsert {κ α : Type} [DecidableEq κ] : List (κ × α) → κ → α → List (κ × α)
  | [], k, v => [(k, v)]
  | (k', v') :: rest, k, v =>
      if k' = k then (k, v) :: rest else (k', v') :: alistInsert rest k v

/-- Python `d.pop(k, None)`: drop the entry for a key. -/
def alistRemove {κ α : Type} [DecidableEq κ] (l : List (κ × α)) (k : κ) : List (κ × α) :=
  l.filter fun x => decide (x.1 ≠ k)

/-- A serialized message dictionary. -/
def SDict : Type := List (String × DVal)

/-- Shape extractor on serialized values: a string. -/
def DVal.asStr : DVal → Option String
  | .str s => some s
  | _ => none

/-- Shape extractor on serialized values: an integer. -/
def DVal.asNum : DVal → Option Nat
  | .num n => some n
  | _ => none

/-- Shape extractor on serialized values: a float. -/
def DVal.asRat : DVal → Option Rat
  | .rat q => some q
  | _ => none

/-- Shape extractor on serialized values: a boolean. -/
def DVal.asBool : DVal → Option Bool
  | .boolv b => some b
  | _ => none

/-- Shape extractor on serialized values: an ISO timestamp, the
`datetime.fromisoformat` call (`none` models the exception on a value that is
not a well-formed timestamp string). -/
def DVal.asTime : DVal → Option Datetime
  | .time d => some d
  | _ => none

/-- Shape extractor on serialized values: a nested map. -/
def DVal.asDict : DVal → Option Dict
  | .dict l => some l
  | _ => none

/-- `Message.to_dict`: the serialized mapping, key for key as built in
message.py. -/
def Message.to_dict (m : Message) : SDict :=
  [ ("message_id", .str m.message_id)
  , ("message_type", .str m.message_type.value)
  , ("sender_id", .str m.sender_id)
  , ("receiver_id", .str m.receiver_id)
  , ("priority", .num m.priority.value)
  , ("timestamp", .time m.timestamp)
  , ("payload", .dict m.payload)
  , ("metadata", .dict m.metadata)
  , ("parent_message_id", match m.parent_message_id with
      | some s => .str s
      | none => .null)
  , ("requires_response", .boolv m.requires_response)
  , ("timeout_seconds", .rat m.timeout_seconds)
  , ("retry_count", .num m.retry_count)
  , ("max_retries", .num m.max_retries) ]

/-- `Message.from_dict`: rebuild a message from a serialized mapping.
Required keys are read with `d[k]` (a missing key or a shape that would make
the enum/timestamp constructors raise yields `none`); optional keys are read
with `d.get(k, default)` and the documented defaults. -/
def Message.from_dict (d : SDict) : Option Message := do
  let mid ← (alistGet? d "message_id").bind DVal.asStr
  let mtv ← (alistGet? d "message_type").bind DVal.asStr
  let mt ← MessageType.ofValue mtv
  let sid ← (alistGet? d "sender_id").bind DVal.asStr
  let rid ← (alistGet? d "receiver_id").bind DVal.asStr
  let pv ← (alistGet? d "priority").bind DVal.asNum
  let p ← MessagePriority.ofValue pv
  let ts ← (alistGet? d "timestamp").bind DVal.asTime
  let pay ← (alistGet? d "payload").bind DVal.asDict
  let md ← DVal.asDict ((alistGet? d "metadata").getD (.dict []))
  let parent := match alistGet? d "parent_message_id" with
    | some (.str s) => some s
    | _ => none
  let rr ← DVal.asBool ((alistGet? d "requires_response").getD (.boolv false))
  let tout ← DVal.asRat ((alistGet? d "timeout_seconds").getD (.rat 30))
  let rc ← DVal.asNum ((alistGet? d "retry_count").getD (.num 0))
  let mr ← DVal.asNum ((alistGet? d "max_retries").getD (.num 3))
  some
    { message_id := mid
      message_type := mt
      sender_id := sid
      receiver_id := rid
      priority := p
      timestamp := ts
      payload := pay
      metadata := md
      parent_message_id := parent
      requires_response := rr
      timeout_seconds := tout
      retry_count := rc
      max_retries := mr }

/-! ### CommunicationProtocol (protocol.py)

The endpoint state carries the handler table and the pending-correlation
table.  An `asyncio.Future` is modelled by `Fut`: `waiting` (not yet done) or
`done r` (`r = some resp` after `set_result`, `r = none` after cancellation).
A registered handler is a function `Message → Except String Unit`; a raised
exception is its `.error` result. -/

/-- State of an `asyncio.Future` held in the pending-correlation table. -/
inductive Fut
  | waiting
  | done (r : Option Message)
deriving DecidableEq

/-- Whether a future is done (`future.done()`). -/
def Fut.isDone : Fut → Bool
  | .waiting => false
  | .done _ => true

/-- A handler callback as registered with `register_handler`: invoking it
either returns or raises (the `.error` case). -/
def Handler : Type := Message → Except String Unit

/-- Per-agent `CommunicationProtocol` state: the `network_id`, the handler
table `_handlers` and the pending-correlation table `_pending_responses`. -/
structure ProtoState where
  network_id : String
  handlers : List (MessageType × Handler)
  pending : List (String × Fut)

/-- Observable effect of one `receive_message` call. -/
inductive RecvAction
  | resolvedWith (parent : String) (m : Message)
  | resolveSkipped (parent : String)
  | handledOk (t : MessageType)
  | handlerError (t : MessageType) (e : String)
  | droppedNoHandler (t : MessageType)

/-- The handler-dispatch tail of `receive_message`: look up the handler for
the message type; invoke it inside `try/except` (a raised exception is caught
and logged, never propagated); with no handler the message is dropped with a
diagnostic. -/
def dispatchHandler (st : ProtoState) (m : Message) : ProtoState × RecvAction :=
  match alistGet? st.handlers m.message_type with
  | some h =>
      match h m with
      | .ok _ => (st, .handledOk m.message_type)
      | .error e => (st, .handlerError m.message_type e)
  | none => (st, .droppedNoHandler m.message_type)

/-- `CommunicationProtocol.receive_message`: if `parent_message_id` is
truthy (not `None` and not the empty string — the guard is
`if message.parent_message_id and message.parent_message_id in
self._pending_responses`) and matches a pending correlation, pop the entry
and resolve the future (only when it is not already done) and return;
otherwise dispatch to the handler table. -/
def receive_message (st : ProtoState) (m : Message) : ProtoState × RecvAction :=
  match m.parent_message_id with
  | some p =>
      if p = "" then dispatchHandler st m
      else match alistGet? st.pending p with
      | some fut =>
          let st' := { st with pending := alistRemove st.pending p }
          match fut with
          | .waiting => (st', .resolvedWith p m)
          | .done _ => (st', .resolveSkipped p)
      | none => dispatchHandler st m
  | none => dispatchHandler st m

/-- `CommunicationProtocol.send_message`.  The oracle `env k` is the outcome
of `await asyncio.wait_for(response_future, timeout)` for the attempt whose
`retry_count` is `k`: `some resp` when the future resolves within the
timeout (the resolving `receive_message` has popped the correlation entry),
`none` when `asyncio.TimeoutError` is raised and caught.  Returns the
response (or `none`), the message after its in-place mutations, and the final
pending table. -/
def send_message (env : Nat → Option Message) (selfId : String)
    (pending : List (String × Fut)) (m : Message) (wait_for_response : Bool) :
    Option Message × Message × List (String × Fut) :=
  let m₁ := { m with sender_id := selfId }
  if wait_for_response then
    let pending₁ := alistInsert pending m₁.message_id .waiting
    let m₂ := { m₁ with requires_response := true }
    match env m₂.retry_count with
    | some resp => (some resp, m₂, alistRemove pending₁ m₂.message_id)
    | none =>
        let pending₂ := alistRemove pending₁ m₂.message_id
        if m₂.should_retry then
          send_message env selfId pending₂ m₂.increment_retry wait_for_response
        else
          (none, m₂, pending₂)
  else
    (none, m₁, pending)
termination_by m.max_retries - m.retry_count
decreasing_by
  simp only [Message.should_retry, Message.increment_retry, decide_eq_true_eq] at *
  omega

/-! ### MessageRouter (router.py)

Router state carries the network registry `_networks`, the capability
registry `_network_capabilities` and the audit log `_message_log`.  The
per-recipient copies a broadcast constructs get fresh `message_id`s from
`uuid.uuid4()` and fresh timestamps from `datetime.utcnow()`; both default
factories are passed in as oracles (`fid`, `ts`). -/

/-- `MessageRouter` state: registries and bounded audit log. -/
structure RouterState where
  networks : List (String × ProtoState)
  capabilities : List (String × List String)
  messageLog : List SDict

/-- `MessageRouter._max_log_size`. -/
def maxLogSize : Nat := 10000

/-- `MessageRouter._log_message`: append the message snapshot, then trim to
the last `maxLogSize` entries (`self._message_log[-self._max_log_size:]`)
when the log has grown past the bound. -/
def log_message (log : List SDict) (m : Message) : List SDict :=
  let log' := log ++ [m.to_dict]
  if log'.length > maxLogSize then log'.drop (log'.length - maxLogSize) else log'

/-- `MessageRouter.find_networks_by_capability`: ids of the registered
networks whose capability set contains the tag, in registry order. -/
def find_networks_by_capability (caps : List (String × List String))
    (capability : String) : List String :=
  (caps.filter fun x => decide (capability ∈ x.2)).map Prod.fst

/-- Outcome of one `await protocol.send_message(msg, wait_for_response=True)`
task inside `asyncio.gather(..., return_exceptions=True)`: a resolved
response, a `None` (timeout after the retry budget), or an exception object
collected by `gather`. -/
inductive SendResult
  | response (m : Message)
  | noResponse
  | failure (e : String)

/-- The `r is not None and not isinstance(r, Exception)` filter of
`route_by_capability`. -/
def SendResult.isResponse : SendResult → Bool
  | .response _ => true
  | _ => false

/-- The kept response of a fan-out task, if any. -/
def SendResult.getResponse : SendResult → Option Message
  | .response r => some r
  | _ => none

/-- `MessageRouter.route_by_capability`: find the capable networks; with none
log a diagnostic and return `[]`; otherwise fan the request out to each
(`protocol.send_message(msg, wait_for_response=True)`, whose eventual result
is the oracle `outcome nid`), gather the results in task order, and keep the
resolved responses.  The fresh fan-out messages only feed the sends, so the
oracle is indexed by the recipient id. -/
def route_by_capability (caps : List (String × List String))
    (outcome : String → SendResult) (capability : String) : List Message :=
  let networkIds := find_networks_by_capability caps capability
  if networkIds.isEmpty then []
  else networkIds.filterMap fun nid => (outcome nid).getResponse

/-- The per-recipient copy `_broadcast` constructs: `sender_id` preserved,
`receiver_id` the recipient, the other constructor arguments copied from the
original, everything unset left at the dataclass defaults. -/
def broadcastCopy (m : Message) (nid : String) (freshId : String)
    (ts : Datetime) : Message :=
  { message_id := freshId
    message_type := m.message_type
    sender_id := m.sender_id
    receiver_id := nid
    priority := m.priority
    timestamp := ts
    payload := m.payload
    metadata := m.metadata
    parent_message_id := none
    requires_response := false
    timeout_seconds := 30
    retry_count := 0
    max_retries := 3 }

/-- The deliveries `_broadcast` performs, as (recipient, delivered copy)
pairs in registry order: one copy per registered network other than the
sender. -/
def broadcastDeliveries (networks : List (String × ProtoState)) (m : Message)
    (fid : String → String) (ts : Datetime) : List (String × Message) :=
  (networks.filter fun x => decide (x.1 ≠ m.sender_id)).map
    fun x => (x.1, broadcastCopy m x.1 (fid x.1) ts)

/-- `MessageRouter._broadcast`: deliver a per-recipient copy to every
registered network except the sender (each via that network's
`receive_message`); individual delivery failures are ignored by the
`gather(..., return_exceptions=True)`. -/
def broadcast (networks : List (String × ProtoState)) (m : Message)
    (fid : String → String) (ts : Datetime) : List (String × ProtoState) :=
  networks.map fun x =>
    if x.1 = m.sender_id then x
    else (x.1, (receive_message x.2 (broadcastCopy m x.1 (fid x.1) ts)).1)

/-- `MessageRouter.route_message`: log the message, then broadcast when
`receiver_id` is the empty sentinel (reporting success), otherwise deliver to
the addressed network's `receive_message`, reporting whether it was found. -/
def route_message (rs : RouterState) (m : Message) (fid : String → String)
    (ts : Datetime) : Bool × RouterState :=
  let rs₁ := { rs with messageLog := log_message rs.messageLog m }
  if m.receiver_id = "" then
    (true, { rs₁ with networks := broadcast rs₁.networks m fid ts })
  else
    match alistGet? rs₁.networks m.receiver_id with
    | none => (false, rs₁)
    | some ps =>
        (true, { rs₁ with
          networks := alistInsert rs₁.networks m.receiver_id
            (receive_message ps m).1 })

/-! ### Concrete sample instances used by the witnesses -/

/-- A protocol endpoint with no handlers and no pending correlations. -/
def protoEmpty (nid : String) : ProtoState := ⟨nid, [], []⟩

/-- A concrete request message. -/
def sampleMsg : Message :=
  { message_id := "m1"
    message_type := .query
    sender_id := "a"
    receiver_id := "b"
    priority := .normal
    timestamp := ⟨0⟩
    payload := []
    metadata := []
    parent_message_id := none
    requires_response := false
    timeout_seconds := 30
    retry_count := 0
    max_retries := 3 }

/-- A concrete response message correlated to the pending request `p1`. -/
def sampleResp : Message :=
  { sampleMsg with
    message_id := "m2"
    message_type := .query_response
    sender_id := "b"
    receiver_id := "a"
    parent_message_id := some "p1" }

/-- A protocol endpoint with one pending correlation. -/
def stPend : ProtoState := ⟨"a", [], [("p1", .waiting)]⟩

/-- A protocol endpoint with a pending correlation under the empty-string
key. -/
def stEmptyKey : ProtoState := ⟨"a", [], [("", .waiting)]⟩

/-- A message carrying the empty string as its parent id. -/
def msgEmptyParent : Message :=
  { sampleMsg with message_id := "m3", parent_message_id := some "" }

/-- A handler that always raises. -/
def failingHandler : Handler := fun _ => .error "boom"

/-- A protocol endpoint with a raising handler for `query` messages. -/
def stHandled : ProtoState := ⟨"a", [(.query, failingHandler)], []⟩

/-- A two-agent registry. -/
def networksTwo : List (String × ProtoState) :=
  [("a", protoEmpty "a"), ("b", protoEmpty "b")]

/-- A concrete fresh-id oracle for broadcast copies. -/
def fidDefault : String → String := fun nid => nid ++ "-bc"

/-- A one-agent router state. -/
def rsOne : RouterState := ⟨[("a", protoEmpty "a")], [("a", ["search"])], []⟩

/-- A direct message to an unregistered agent id. -/
def msgToMissing : Message := { sampleMsg with receiver_id := "zz" }

/-- A three-agent capability registry, two of them holding `search`. -/
def capsTwo : List (String × List String) :=
  [("a", ["search"]), ("b", ["search"]), ("c", ["compute"])]

/-- A fan-out outcome oracle: agent `a` responds, everybody else times out. -/
def outcomeOne : String → SendResult :=
  fun nid => if nid = "a" then .response sampleMsg else .noResponse

/-- Round trip of the `MessageType` enum through its `.value`. -/
theorem messageTypeValue_roundtrip (t : MessageType) :
    MessageType.ofValue t.value = some t := by
  cases t <;> rfl

/-- Round trip of the `MessagePriority` enum through its `.value`. -/
theorem messagePriorityValue_roundtrip (p : MessagePriority) :
    MessagePriority.ofValue p.value = some p := by
  cases p <;> rfl

/-- C8: for every message `m` and payload `p`, `m.create_response(p)` returns
a new message whose `parent_message_id` equals `m.message_id`, whose
`sender_id` equals `m.receiver_id`, and whose `receiver_id` equals
`m.sender_id` — addressed back to the request's sender. -/
theorem claim_C8_create_response (m : Message) (fid : String) (ts : Datetime)
    (p : Dict) (md : Option Dict) :
    (m.create_response fid ts p md).parent_message_id = some m.message_id ∧
    (m.create_response fid ts p md).sender_id = m.receiver_id ∧
    (m.create_response fid ts p md).receiver_id = m.sender_id :=
  ⟨rfl, rfl, rfl⟩

/-- C7: after a `_log_message` step the audit log holds at most the
configured capacity of 10000 entries (its length is exactly
`min (old + 1) 10000`), and the retained entries are the most recent ones in
arrival order — the log equals the appended list with its oldest overflow
dropped from the front (FIFO eviction). -/
theorem claim_C7_audit_log_bounded (log : List SDict) (m : Message) :
    maxLogSize = 10000 ∧
    (log_message log m).length = min (log.length + 1) maxLogSize ∧
    log_message log m = (log ++ [m.to_dict]).drop (log.length + 1 - maxLogSize) := by
  refine ⟨rfl, ?_, ?_⟩ <;> unfold log_message <;>
    simp only [List.length_append, List.length_cons, List.length_nil, Nat.zero_add] <;>
    by_cases h : log.length + 1 > maxLogSize
  · simp only [if_pos h, List.length_drop, List.length_append, List.length_cons,
      List.length_nil]
    omega
  · simp only [if_neg h]
    simp only [List.length_append, List.length_cons, List.length_nil]
    omega
  · simp only [if_pos h, List.length_append, List.length_cons, List.length_nil]
  · simp only [if_neg h]
    have h0 : log.length + 1 - maxLogSize = 0 := by omega
    rw [h0, List.drop_zero]

/-- C9: `Message.from_dict` succeeds on a mapping carrying the required keys
even when all the optional keys `metadata`, `parent_message_id`,
`requires_response`, `timeout_seconds`, `retry_count`, `max_retries` are
absent, filling them with the defaults `{}`, `None`, `False`, `30.0`, `0`,
`3` respectively. -/
theorem claim_C9_from_dict_defaults (d : SDict) (mid sid rid : String)
    (mt : MessageType) (p : MessagePriority) (ts : Datetime) (pay : Dict)
    (h1 : alistGet? d "message_id" = some (.str mid))
    (h2 : alistGet? d "message_type" = some (.str mt.value))
    (h3 : alistGet? d "sender_id" = some (.str sid))
    (h4 : alistGet? d "receiver_id" = some (.str rid))
    (h5 : alistGet? d "priority" = some (.num p.value))
    (h6 : alistGet? d "timestamp" = some (.time ts))
    (h7 : alistGet? d "payload" = some (.dict pay))
    (h8 : alistGet? d "metadata" = none)
    (h9 : alistGet? d "parent_message_id" = none)
    (h10 : alistGet? d "requires_response" = none)
    (h11 : alistGet? d "timeout_seconds" = none)
    (h12 : alistGet? d "retry_count" = none)
    (h13 : alistGet? d "max_retries" = none) :
    Message.from_dict d = some
      { message_id := mid
        message_type := mt
        sender_id := sid
        receiver_id := rid
        priority := p
        timestamp := ts
        payload := pay
        metadata := []
        parent_message_id := none
        requires_response := false
        timeout_seconds := 30
        retry_count := 0
        max_retries := 3 } := by
  unfold Message.from_dict
  rw [h1, h2, h3, h4, h5, h6, h7, h8, h9, h10, h11, h12, h13]
  simp [messageTypeValue_roundtrip, messagePriorityValue_roundtrip,
    DVal.asStr, DVal.asNum, DVal.asRat, DVal.asBool, DVal.asTime, DVal.asDict]

/-- Witness for C9 at a concrete seven-key mapping. -/
theorem claim_C9_witness :
    Message.from_dict
      [ ("message_id", .str "m1"), ("message_type", .str "query")
      , ("sender_id", .str "a"), ("receiver_id", .str "b")
      , ("priority", .num 1), ("timestamp", .time ⟨0⟩)
      , ("payload", .dict []) ] = some
      { message_id := "m1"
        message_type := .query
        sender_id := "a"
        receiver_id := "b"
        priority := .normal
        timestamp := ⟨0⟩
        payload := []
        metadata := []
        parent_message_id := none
        requires_response := false
        timeout_seconds := 30
        retry_count := 0
        max_retries := 3 } :=
  claim_C9_from_dict_defaults _ "m1" "a" "b" .query .normal ⟨0⟩ []
    rfl rfl rfl rfl rfl rfl rfl rfl rfl rfl rfl rfl rfl

/-- C10: serialization followed by deserialization is the identity —
`Message.from_dict (m.to_dict())` reconstructs `m` in every field. -/
theorem claim_C10_roundtrip (m : Message) :
    Message.from_dict m.to_dict = some m := by
  obtain ⟨mid, mt, sid, rid, p, ts, pay, md, parent, rr, tout, rc, mr⟩ := m
  simp only [Message.to_dict, Message.from_dict, alistGet?]
  simp [messageTypeValue_roundtrip, messagePriorityValue_roundtrip,
    DVal.asStr, DVal.asNum, DVal.asRat, DVal.asBool, DVal.asTime, DVal.asDict]
  cases parent <;> simp

/-- Removing a key makes its lookup fail. -/
theorem alistGet?_alistRemove {κ α : Type} [DecidableEq κ]
    (l : List (κ × α)) (k : κ) : alistGet? (alistRemove l k) k = none := by
  induction l with
  | nil => rfl
  | cons x rest ih =>
      by_cases h : x.1 = k
      · simpa [alistRemove, List.filter_cons, h, alistGet?] using ih
      · simpa [alistRemove, List.filter_cons, h, alistGet?] using ih

/-- Removing a key right after writing it removes exactly the original
entry. -/
theorem alistRemove_alistInsert {κ α : Type} [DecidableEq κ]
    (l : List (κ × α)) (k : κ) (v : α) :
    alistRemove (alistInsert l k v) k = alistRemove l k := by
  induction l with
  | nil => simp [alistInsert, alistRemove, List.filter_cons]
  | cons x rest ih =>
      obtain ⟨k', v'⟩ := x
      by_cases h : k' = k
      · simp [alistInsert, alistRemove, List.filter_cons, h] at *
      · simp [alistInsert, alistRemove, List.filter_cons, h] at *
        simpa [alistRemove] using ih

/-- Removing a key twice is the same as removing it once. -/
theorem alistRemove_idem {κ α : Type} [DecidableEq κ]
    (l : List (κ × α)) (k : κ) :
    alistRemove (alistRemove l k) k = alistRemove l k := by
  unfold alistRemove
  rw [List.filter_filter]
  simp only [Bool.and_self]

/-- C3 (amended): a message whose *non-empty* `parent_message_id` matches a
pending correlation resolves that correlation (when its future is not yet
done), removes the entry from the pending table, and returns without
invoking any registered handler; a future that is already done is not
resolved again — the second resolution attempt is a no-op.  The non-empty
restriction is forced by the truthiness guard of receive_message: an
empty-string parent id never takes the resolution path (see the
counterexample). -/
theorem claim_C3_response_resolution (st : ProtoState) (m : Message)
    (p : String) (fut : Fut)
    (h1 : m.parent_message_id = some p)
    (hne : p ≠ "")
    (h2 : alistGet? st.pending p = some fut) :
    (receive_message st m).1.pending = alistRemove st.pending p ∧
    (receive_message st m).1.handlers = st.handlers ∧
    alistGet? (receive_message st m).1.pending p = none ∧
    (fut = .waiting → (receive_message st m).2 = .resolvedWith p m) ∧
    (∀ r, fut = .done r → (receive_message st m).2 = .resolveSkipped p) := by
  unfold receive_message
  rw [h1]
  simp only [if_neg hne, h2]
  cases fut with
  | waiting =>
      refine ⟨rfl, rfl, alistGet?_alistRemove _ _, fun _ => rfl, ?_⟩
      intro r hr
      exact absurd hr (by simp)
  | done r0 =>
      refine ⟨rfl, rfl, alistGet?_alistRemove _ _, ?_, fun r hr => rfl⟩
      intro hw
      exact absurd hw (by simp)

/-- Witness for C3 at a concrete pending correlation. -/
theorem claim_C3_witness :
    (receive_message stPend sampleResp).2 = .resolvedWith "p1" sampleResp ∧
    alistGet? (receive_message stPend sampleResp).1.pending "p1" = none := by
  have h := claim_C3_response_resolution stPend sampleResp "p1" .waiting rfl
    (by decide) rfl
  exact ⟨h.2.2.2.1 rfl, h.2.2.1⟩

/-- Counterexample to C3 as stated: with a pending correlation under the
empty-string key and a message whose parent id is that empty string, the
parent id matches a pending correlation, yet `receive_message` neither
resolves nor removes it — it falls through to handler dispatch. -/
theorem claim_C3_counterexample :
    msgEmptyParent.parent_message_id = some "" ∧
    alistGet? stEmptyKey.pending "" = some .waiting ∧
    (receive_message stEmptyKey msgEmptyParent).2 = .droppedNoHandler .query ∧
    (receive_message stEmptyKey msgEmptyParent).1.pending = [("", Fut.waiting)] :=
  ⟨rfl, rfl, rfl, rfl⟩

/-- C4: a non-response message is dispatched to the handler registered for
its type; the protocol state is untouched, a raising handler's exception is
caught (surfacing as a logged `handlerError` action, never propagating), and
with no registered handler the message is dropped with a diagnostic while
`receive_message` still returns normally. -/
theorem claim_C4_handler_isolation (st : ProtoState) (m : Message)
    (hp : ∀ p, m.parent_message_id = some p → alistGet? st.pending p = none) :
    (receive_message st m).1 = st ∧
    (∀ hb, alistGet? st.handlers m.message_type = some hb →
      (∀ u, hb m = .ok u → (receive_message st m).2 = .handledOk m.message_type) ∧
      (∀ e, hb m = .error e →
        (receive_message st m).2 = .handlerError m.message_type e)) ∧
    (alistGet? st.handlers m.message_type = none →
      (receive_message st m).2 = .droppedNoHandler m.message_type) := by
  have hd : receive_message st m = dispatchHandler st m := by
    unfold receive_message
    cases hpar : m.parent_message_id with
    | none => rfl
    | some p =>
        simp only [hp p hpar]
        split <;> rfl
  rw [hd]
  unfold dispatchHandler
  cases hh : alistGet? st.handlers m.message_type with
  | none => exact ⟨rfl, fun hb hhb => absurd hhb (by simp), fun _ => rfl⟩
  | some hb =>
      refine ⟨?_, ?_, fun hnone => absurd hnone (by simp)⟩
      · cases hr : hb m with
        | ok u => simp only [hr]
        | error e0 => simp only [hr]
      · intro hb' hhb'
        obtain rfl : hb' = hb := by
          have := hhb'
          simpa using this.symm
        constructor
        · intro u hu
          simp only [hu]
        · intro e he
          simp only [he]

/-- Witness for C4 at a concrete raising handler. -/
theorem claim_C4_witness :
    (receive_message stHandled sampleMsg).1 = stHandled ∧
    (receive_message stHandled sampleMsg).2 = .handlerError .query "boom" := by
  have h := claim_C4_handler_isolation stHandled sampleMsg
    (fun p hpar => by simp [sampleMsg] at hpar)
  exact ⟨h.1, (h.2.1 failingHandler rfl).2 "boom" rfl⟩

/-- One timed-out attempt of a waiting `send_message` that still has retry
budget: the stale correlation entry is removed and the call re-issues itself
with the retry counter bumped. -/
theorem send_message_step_timeout (env : Nat → Option Message) (selfId : String)
    (pd : List (String × Fut)) (mm : Message)
    (h : env mm.retry_count = none)
    (hs : mm.retry_count < mm.max_retries) :
    send_message env selfId pd mm true =
      send_message env selfId (alistRemove pd mm.message_id)
        { mm with
          sender_id := selfId
          requires_response := true
          retry_count := mm.retry_count + 1 } true := by
  rw [send_message.eq_def]
  simp [h, hs, Message.should_retry, Message.increment_retry,
    alistRemove_alistInsert]

/-- The final timed-out attempt of a waiting `send_message` whose retry
budget is exhausted: the stale correlation entry is removed and the call
returns the absent result. -/
theorem send_message_stop_timeout (env : Nat → Option Message) (selfId : String)
    (pd : List (String × Fut)) (mm : Message)
    (h : env mm.retry_count = none)
    (hs : ¬ mm.retry_count < mm.max_retries) :
    send_message env selfId pd mm true =
      (none,
        { mm with
          sender_id := selfId
          requires_response := true },
        alistRemove pd mm.message_id) := by
  rw [send_message.eq_def]
  simp [h, hs, Message.should_retry, Message.increment_retry,
    alistRemove_alistInsert]

/-- C2: when every attempt of a `send_message` with `wait_for_response=True`
times out, the call returns `none` (never raising), removes the
pending-correlation entry of the message id each round, and retries while
`should_retry()` holds, incrementing `retry_count` up to `max_retries`;
the final pending table is the original one without the message's entry. -/
theorem claim_C2_timeout_retry (env : Nat → Option Message) (selfId : String)
    (pending : List (String × Fut)) (m : Message)
    (henv : ∀ k, env k = none)
    (hrc : m.retry_count ≤ m.max_retries) :
    (send_message env selfId pending m true).1 = none ∧
    (send_message env selfId pending m true).2.1.retry_count = m.max_retries ∧
    (send_message env selfId pending m true).2.2 =
      alistRemove pending m.message_id ∧
    alistGet? (send_message env selfId pending m true).2.2 m.message_id = none := by
  have key : ∀ (n : Nat) (pd : List (String × Fut)) (mm : Message),
      mm.max_retries - mm.retry_count = n →
      mm.retry_count ≤ mm.max_retries →
      (send_message env selfId pd mm true).1 = none ∧
      (send_message env selfId pd mm true).2.1.retry_count = mm.max_retries ∧
      (send_message env selfId pd mm true).2.2 = alistRemove pd mm.message_id := by
    intro n
    induction n with
    | zero =>
        intro pd mm h0 hle
        have hs : ¬ mm.retry_count < mm.max_retries := by omega
        rw [send_message_stop_timeout env selfId pd mm (henv _) hs]
        exact ⟨rfl, by show mm.retry_count = mm.max_retries; omega, rfl⟩
    | succ k ih =>
        intro pd mm h0 hle
        have hs : mm.retry_count < mm.max_retries := by omega
        rw [send_message_step_timeout env selfId pd mm (henv _) hs]
        have h' := ih (alistRemove pd mm.message_id)
          { mm with
            sender_id := selfId
            requires_response := true
            retry_count := mm.retry_count + 1 }
          (by show mm.max_retries - (mm.retry_count + 1) = k; omega)
          (by show mm.retry_count + 1 ≤ mm.max_retries; omega)
        refine ⟨h'.1, ?_, ?_⟩
        · rw [h'.2.1]
        · rw [h'.2.2]
          exact alistRemove_idem pd mm.message_id
  have h := key (m.max_retries - m.retry_count) pending m rfl hrc
  exact ⟨h.1, h.2.1, h.2.2, by rw [h.2.2]; exact alistGet?_alistRemove _ _⟩

/-- Witness for C2 at a concrete never-resolving environment. -/
theorem claim_C2_witness :
    (send_message (fun _ => none) "a" [] sampleMsg true).1 = none ∧
    (send_message (fun _ => none) "a" [] sampleMsg true).2.1.retry_count = 3 ∧
    alistGet? (send_message (fun _ => none) "a" [] sampleMsg true).2.2 "m1" = none := by
  have h := claim_C2_timeout_retry (fun _ => none) "a" [] sampleMsg
    (fun _ => rfl) (by decide)
  exact ⟨h.1, h.2.1, h.2.2.2⟩

/-- The length of a `filterMap` counts the inputs it keeps. -/
theorem length_filterMap_eq {α β : Type} (f : α → Option β) (l : List α) :
    (l.filterMap f).length = (l.filter fun a => (f a).isSome).length := by
  induction l with
  | nil => rfl
  | cons a t ih =>
      cases h : f a <;> simp [List.filterMap_cons, List.filter_cons, h, ih]

/-- A fan-out task keeps a response exactly when its result is a response. -/
theorem SendResult.isSome_getResponse (s : SendResult) :
    s.getResponse.isSome = s.isResponse := by
  cases s <;> rfl

/-- The kept response determines the task result. -/
theorem SendResult.getResponse_eq_some (s : SendResult) (r : Message) :
    s.getResponse = some r ↔ s = .response r := by
  cases s <;> simp [SendResult.getResponse]

/-- C1: `route_by_capability` returns exactly the responses of the
capability-matching agents that resolved within the timeout: the result
length equals the number of responders among the matching agents, the
returned messages are exactly the resolved responses, and with zero matching
agents the result is the empty list. -/
theorem claim_C1_capability_fanout (caps : List (String × List String))
    (outcome : String → SendResult) (capability : String) :
    (route_by_capability caps outcome capability).length =
      ((find_networks_by_capability caps capability).filter
        fun nid => (outcome nid).isResponse).length ∧
    (∀ r, r ∈ route_by_capability caps outcome capability ↔
      ∃ nid ∈ find_networks_by_capability caps capability,
        outcome nid = .response r) ∧
    (find_networks_by_capability caps capability = [] →
      route_by_capability caps outcome capability = []) := by
  unfold route_by_capability
  cases hids : find_networks_by_capability caps capability with
  | nil => simp
  | cons x xs =>
      simp only [List.isEmpty_cons, Bool.false_eq_true, if_false]
      refine ⟨?_, ?_, fun h => absurd h (by simp)⟩
      · rw [length_filterMap_eq]
        congr 1
        apply List.filter_congr
        intro nid _
        exact SendResult.isSome_getResponse _
      · intro r
        simp [List.mem_filterMap, SendResult.getResponse_eq_some]

/-- Witness for C1 at a concrete registry where one of the two matching
agents responds. -/
theorem claim_C1_witness :
    (route_by_capability capsTwo outcomeOne "search").length =
      ((find_networks_by_capability capsTwo "search").filter
        fun nid => (outcomeOne nid).isResponse).length :=
  (claim_C1_capability_fanout capsTwo outcomeOne "search").1

/-- Every delivery `_broadcast` performs is to a non-sender recipient and
carries the sender id and that recipient as addressing. -/
theorem broadcastDeliveries_wf (networks : List (String × ProtoState))
    (m : Message) (fid : String → String) (ts : Datetime) :
    ∀ r c, (r, c) ∈ broadcastDeliveries networks m fid ts →
      r ≠ m.sender_id ∧ c.sender_id = m.sender_id ∧ c.receiver_id = r := by
  intro r c hmem
  unfold broadcastDeliveries at hmem
  rw [List.mem_map] at hmem
  obtain ⟨x, hx, heq⟩ := hmem
  rw [List.mem_filter] at hx
  obtain ⟨_, hx2⟩ := hx
  simp only [decide_eq_true_eq] at hx2
  obtain ⟨h1, h2⟩ := Prod.mk.injEq .. ▸ heq
  subst h1
  subst h2
  exact ⟨hx2, rfl, rfl⟩

/-- C5: a broadcast delivers exactly one per-recipient copy to every
registered agent other than the sender, with `sender_id` preserved and
`receiver_id` set to that recipient, and never delivers a copy back to the
sender. -/
theorem claim_C5_broadcast_no_self (networks : List (String × ProtoState))
    (m : Message) (fid : String → String) (ts : Datetime)
    (hnd : (networks.map Prod.fst).Nodup) :
    (∀ r, r ∈ networks.map Prod.fst → r ≠ m.sender_id →
      (broadcastDeliveries networks m fid ts).countP
        (fun x => decide (x.1 = r)) = 1) ∧
    (∀ r c, (r, c) ∈ broadcastDeliveries networks m fid ts →
      r ≠ m.sender_id ∧ c.sender_id = m.sender_id ∧ c.receiver_id = r) ∧
    (∀ c, (m.sender_id, c) ∉ broadcastDeliveries networks m fid ts) := by
  refine ⟨?_, broadcastDeliveries_wf networks m fid ts, ?_⟩
  · intro r hr hrs
    unfold broadcastDeliveries
    rw [List.countP_map, List.countP_filter]
    have hcong : networks.countP
        (fun a => ((fun x => decide (x.1 = r)) ∘
          fun x => (x.1, broadcastCopy m x.1 (fid x.1) ts)) a &&
          decide (a.1 ≠ m.sender_id)) =
        networks.countP (fun a => decide (a.1 = r)) := by
      apply List.countP_congr
      intro a _
      by_cases h : a.1 = r
      · simp [Function.comp, h, hrs]
      · simp [Function.comp, h]
    rw [hcong]
    have hcnt : networks.countP (fun a => decide (a.1 = r)) =
        (networks.map Prod.fst).count r := by
      rw [List.count, List.countP_map]
      apply List.countP_congr
      intro a _
      by_cases h : a.1 = r
      · simp [Function.comp, h]
      · simp [Function.comp, h]
    rw [hcnt]
    exact List.count_eq_one_of_mem hnd hr
  · intro c hc
    exact absurd rfl (broadcastDeliveries_wf networks m fid ts _ c hc).1

/-- Witness for C5 at a concrete two-agent registry with `a` broadcasting. -/
theorem claim_C5_witness :
    (broadcastDeliveries networksTwo sampleMsg fidDefault ⟨0⟩).countP
      (fun x => decide (x.1 = "b")) = 1 :=
  (claim_C5_broadcast_no_self networksTwo sampleMsg fidDefault ⟨0⟩
    (by decide)).1 "b" (by decide) (by decide)

/-- The audit log never exceeds its capacity after a `_log_message` step. -/
theorem log_message_length (log : List SDict) (m : Message) :
    (log_message log m).length = min (log.length + 1) maxLogSize := by
  show (if (log ++ [m.to_dict]).length > maxLogSize then
      List.drop ((log ++ [m.to_dict]).length - maxLogSize) (log ++ [m.to_dict])
    else (log ++ [m.to_dict])).length = min (log.length + 1) maxLogSize
  by_cases h : (log ++ [m.to_dict]).length > maxLogSize
  · rw [if_pos h, List.length_drop]
    simp only [List.length_append, List.length_cons, List.length_nil] at h ⊢
    omega
  · rw [if_neg h]
    simp only [List.length_append, List.length_cons, List.length_nil] at h ⊢
    omega

/-- C6: `route_message` reports success exactly when the message is a
broadcast or its addressed destination is registered; in every case it
appends exactly one snapshot to the audit log (a direct message to a missing
agent id thus returns `false` having logged its single entry). -/
theorem claim_C6_route_result (rs : RouterState) (m : Message)
    (fid : String → String) (ts : Datetime) :
    (route_message rs m fid ts).1 =
      (decide (m.receiver_id = "") ||
        (alistGet? rs.networks m.receiver_id).isSome) ∧
    (route_message rs m fid ts).2.messageLog = log_message rs.messageLog m ∧
    (rs.messageLog.length < maxLogSize →
      (route_message rs m fid ts).2.messageLog.length =
        rs.messageLog.length + 1) := by
  unfold route_message
  by_cases hb : m.receiver_id = ""
  · refine ⟨by simp [hb], by simp [hb], ?_⟩
    intro hlen
    rw [if_pos hb]
    show (log_message rs.messageLog m).length = rs.messageLog.length + 1
    rw [log_message_length]
    omega
  · cases hlook : alistGet? rs.networks m.receiver_id with
    | none =>
        refine ⟨by simp [hb, hlook], by simp [hb, hlook], ?_⟩
        intro hlen
        rw [if_neg hb]
        simp only [hlook]
        show (log_message rs.messageLog m).length = rs.messageLog.length + 1
        rw [log_message_length]
        omega
    | some ps =>
        refine ⟨by simp [hb, hlook], by simp [hb, hlook], ?_⟩
        intro hlen
        rw [if_neg hb]
        simp only [hlook]
        show (log_message rs.messageLog m).length = rs.messageLog.length + 1
        rw [log_message_length]
        omega

/-- Witness for C6: a direct message to the unregistered id `zz` returns
`false` and leaves one audit-log entry. -/
theorem claim_C6_witness :
    (route_message rsOne msgToMissing fidDefault ⟨0⟩).1 = false ∧
    (route_message rsOne msgToMissing fidDefault ⟨0⟩).2.messageLog.length = 1 := by
  have h := claim_C6_route_result rsOne msgToMissing fidDefault ⟨0⟩
  refine ⟨?_, ?_⟩
  · rw [h.1]
    decide
  · exact (h.2.2 (by decide)).trans (by decide)

end HierComm
